import Mathlib

/-!
Verification of the messenger465 chat client's network layer
(`messenger465_client.py`, class `MessageBoardNetwork` and the message
rendering loop of `MessageBoardController.retrieve_messages`).

Datagrams are modelled as lists of byte values (`List Nat`, each entry the
value of one byte).  The blocking `select`/`recvfrom` calls are modelled by
an explicit schedule of network events: each `select` consumes one event,
which is either a timeout (costing `timeout` abstract time units) or the
arrival of a datagram after some delay.  Uncaught Python exceptions
(IndexError in `_gen_chksum` on inputs shorter than two bytes, ValueError
in `int(chr(...))` on a non-digit sequence byte) are modelled by `Option`
(`none`) and by an explicit `crash` outcome.
-/

namespace Messenger465

/-- The list of byte values of an ASCII string (every protocol constant in
the source is ASCII, so `str.encode()` is byte-per-character). -/
def asciiStr (s : String) : List Nat := s.data.map Char.toNat

/-- `MessageBoardNetwork._gen_chksum`: `chksum = msg[0] ^ msg[1]` followed by
XOR-folding the remaining bytes.  The source indexes `msg[0]` and `msg[1]`
unconditionally, so an input of fewer than two bytes raises IndexError,
modelled as `none`. -/
def genChksum : List Nat → Option Nat
  | b0 :: b1 :: rest => some (rest.foldl (fun a b => a ^^^ b) (b0 ^^^ b1))
  | _ => none

/-- `MessageBoardNetwork._chksum_correct`: `(chksum1 & chksum2) == chksum1`,
called with the received checksum first and the recomputed one second. -/
def chksumCorrect (chksum1 chksum2 : Nat) : Bool :=
  (chksum1 &&& chksum2) == chksum1

/-- `MessageBoardNetwork._update_seqn`: toggle the current sequence number
between 0 and 1. -/
def updateSeqn (s : Nat) : Nat := if s = 0 then 1 else 0

/-- Client configuration: `retries` and `timeout` as passed to the
`MessageBoardNetwork` constructor, plus the current sequence number
`_curr_seqn` at the start of the call. `timeout` is in abstract time
units. -/
structure Config where
  retries : Nat
  timeout : Nat
  seqn : Nat
deriving DecidableEq

/-- Parse the header of a received datagram exactly as the source reads it:
`actual_chksum = _gen_chksum(msgs[3:])` (IndexError when the datagram has
fewer than 5 bytes), `recvd_chksum = msgs[2]`, `version = chr(msgs[0])`
(kept as a byte value), `seqn = int(chr(msgs[1]))` (ValueError unless the
byte is an ASCII digit).  `none` models the uncaught exception.  The result
is `(recvd_chksum, actual_chksum, version, seqn)`. -/
def headerParse (data : List Nat) : Option (Nat × Nat × Nat × Nat) :=
  match genChksum (data.drop 3) with
  | none => none
  | some computed =>
    let recvd := data.getD 2 0
    let ver := data.getD 0 0
    let b1 := data.getD 1 0
    if 48 ≤ b1 ∧ b1 ≤ 57 then some (recvd, computed, ver, b1 - 48)
    else none

/-- The acceptance test applied to a parsed reply header (the condition of
the `while not (...)` loops): checksum check, version must be `'C'`
(byte 67), and the sequence number must equal `_curr_seqn`. -/
def headerAccept (cfg : Config) (recvd computed ver sq : Nat) : Bool :=
  chksumCorrect recvd computed && (ver == 67) && (cfg.seqn == sq)

/-- One network event consumed by one `select` call: either the timeout
expires (costing `cfg.timeout` time), or a datagram arrives after `delay`
time units (a reply delivered before expiry has `delay < cfg.timeout`). -/
inductive NetEvent
  | timeout
  | arrival (delay : Nat) (data : List Nat)
deriving DecidableEq

/-- State of one in-flight exchange: the `num_retries` counter, the number
of datagram transmissions so far, and the accumulated blocking time. -/
structure XState where
  numRetries : Nat
  sends : Nat
  time : Nat
deriving DecidableEq

/-- Terminal outcome of the send/wait/retry loops: retries exhausted
(`return (-2, 0)`), an accepted reply (datagram handed to the
application-layer branch), or an uncaught exception. -/
inductive Outcome
  | exhausted (sends time : Nat)
  | accepted (data : List Nat) (sends time : Nat)
  | crash (sends time : Nat)
deriving DecidableEq

/-- Result of processing one network event. -/
inductive StepRes
  | done (o : Outcome)
  | next (st : XState)
deriving DecidableEq

/-- Process one `select` outcome, mirroring the loop bodies shared by
`getMessages` and `postMessage`:
on a timeout, `num_retries += 1; if num_retries > self.retries: return
(-2, 0)`, else resend and wait again; on an arrival, `recvfrom`, parse the
header (crash on exception), finish if the header is accepted, else resend
and wait again with `num_retries` unchanged. -/
def step (cfg : Config) (st : XState) : NetEvent → StepRes
  | .timeout =>
    if cfg.retries < st.numRetries + 1 then
      .done (.exhausted st.sends (st.time + cfg.timeout))
    else
      .next ⟨st.numRetries + 1, st.sends + 1, st.time + cfg.timeout⟩
  | .arrival d data =>
    match headerParse data with
    | none => .done (.crash st.sends (st.time + d))
    | some (recvd, computed, ver, sq) =>
      if headerAccept cfg recvd computed ver sq then
        .done (.accepted data st.sends (st.time + d))
      else
        .next ⟨st.numRetries, st.sends + 1, st.time + d⟩

/-- Result of running the loops against a finite schedule: a terminal
outcome, or `pending` when the schedule ends while the code is still
waiting. -/
inductive RunRes
  | finished (o : Outcome)
  | pending (st : XState)
deriving DecidableEq

/-- Run the send/wait/retry loops over a schedule of network events. -/
def run (cfg : Config) (st : XState) : List NetEvent → RunRes
  | [] => .pending st
  | e :: es =>
    match step cfg st e with
    | .done o => .finished o
    | .next st2 => run cfg st2 es

/-- State on entering the first `select`: the request has been sent once
(`sends = 1`), `num_retries = 0`, no time spent blocking yet. -/
def initState : XState := ⟨0, 1, 0⟩

/-- Python's `str.split("::")`: split a byte list at each (leftmost,
non-overlapping) occurrence of the two-byte separator `"::"`, keeping
empty fields. -/
def splitCC : List Nat → List (List Nat)
  | [] => [[]]
  | 58 :: 58 :: rest => [] :: splitCC rest
  | x :: rest =>
    match splitCC rest with
    | [] => [[x]]
    | h :: t => (x :: h) :: t

/-- Second component of the pairs returned by `getMessages`/`postMessage`:
a number, a list of strings, or one string (each string as bytes). -/
inductive AppPayload
  | num (n : Nat)
  | msgs (l : List (List Nat))
  | txt (s : List Nat)
deriving DecidableEq

/-- A UTF-8 continuation byte (`0x80`–`0xBF`). -/
def contByte (b : Nat) : Bool := 128 ≤ b && b ≤ 191

/-- Strict UTF-8 validity of a byte sequence, as enforced by Python's
`bytes.decode()` (RFC 3629 well-formed table: no overlong encodings, no
surrogates `ED A0`–`ED BF`, nothing above `U+10FFFF`, no stray
continuation or truncated sequence).  `false` means `.decode()` raises
UnicodeDecodeError. -/
def utf8Valid : List Nat → Bool
  | [] => true
  | b0 :: rest =>
    if b0 ≤ 127 then utf8Valid rest
    else
      match rest with
      | [] => false
      | b1 :: rest2 =>
        if 194 ≤ b0 && b0 ≤ 223 then contByte b1 && utf8Valid rest2
        else
          match rest2 with
          | [] => false
          | b2 :: rest3 =>
            if b0 = 224 then
              (160 ≤ b1 && b1 ≤ 191) && contByte b2 && utf8Valid rest3
            else if (225 ≤ b0 && b0 ≤ 236) || (238 ≤ b0 && b0 ≤ 239) then
              contByte b1 && contByte b2 && utf8Valid rest3
            else if b0 = 237 then
              (128 ≤ b1 && b1 ≤ 159) && contByte b2 && utf8Valid rest3
            else
              match rest3 with
              | [] => false
              | b3 :: rest4 =>
                if b0 = 240 then
                  (144 ≤ b1 && b1 ≤ 191) && contByte b2 && contByte b3 &&
                    utf8Valid rest4
                else if 241 ≤ b0 && b0 ≤ 243 then
                  contByte b1 && contByte b2 && contByte b3 && utf8Valid rest4
                else if b0 = 244 then
                  (128 ≤ b1 && b1 ≤ 143) && contByte b2 && contByte b3 &&
                    utf8Valid rest4
                else false

/-- Application-layer classification of an accepted GET reply `msgs`
(header included), mirroring the branch cascade of `getMessages`
including each `.decode()` call in source order: `msgs[3:5].decode()` is
evaluated first (UnicodeDecodeError, modelled `none`, if those bytes are
not valid UTF-8); `== "OK" and len(msgs) > 5` → decode `msgs[5:]` and
return `(1, msgs[5:].split("::"))`; `len(msgs) == 5` →
`(0, ["no messages currently"])`; else decode `msgs[3:8]`, `== "ERROR"` →
decode and return `(-1, msgs[8:])`; otherwise `(2, 0)`.  (When a slice
decodes, comparing the decoded string with an ASCII constant equals
comparing the raw bytes, since UTF-8 is injective.) -/
def classifyGet (msgs : List Nat) : Option (Int × AppPayload) :=
  if utf8Valid ((msgs.drop 3).take 2) then
    if (msgs.drop 3).take 2 = asciiStr "OK" ∧ 5 < msgs.length then
      if utf8Valid (msgs.drop 5) then some (1, .msgs (splitCC (msgs.drop 5)))
      else none
    else if msgs.length = 5 then
      some (0, .msgs [asciiStr "no messages currently"])
    else if utf8Valid ((msgs.drop 3).take 5) then
      if (msgs.drop 3).take 5 = asciiStr "ERROR" then
        if utf8Valid (msgs.drop 8) then some (-1, .txt (msgs.drop 8))
        else none
      else some (2, .num 0)
    else none
  else none

/-- Application-layer classification of an accepted POST reply, mirroring
`postMessage` with each `.decode()` in source order:
`msgs[3:5].decode() == "OK"` → `(0, 0)`; else
`msgs[3:8].decode() == "ERROR"` → `(-1, msgs[8:].decode())`; otherwise
`(2, 0)`; `none` models UnicodeDecodeError on the slice being decoded. -/
def classifyPost (msgs : List Nat) : Option (Int × AppPayload) :=
  if utf8Valid ((msgs.drop 3).take 2) then
    if (msgs.drop 3).take 2 = asciiStr "OK" then some (0, .num 0)
    else if utf8Valid ((msgs.drop 3).take 5) then
      if (msgs.drop 3).take 5 = asciiStr "ERROR" then
        if utf8Valid (msgs.drop 8) then some (-1, .txt (msgs.drop 8))
        else none
      else some (2, .num 0)
    else none
  else none

/-- Result of a full `getMessages`/`postMessage` call: the returned pair
together with the sequence number after the call and the transmission and
blocking-time counts; `crash` models an uncaught exception; `pending`
means the event schedule ended mid-call. -/
inductive CallResult
  | ret (rv : Int) (payload : AppPayload) (seqn sends time : Nat)
  | crash (sends time : Nat)
  | pending
deriving DecidableEq

/-- Map the outcome of the retry loops to the value `getMessages` returns.
Every application-layer branch calls `_update_seqn` before returning; the
retries-exhausted path returns `(-2, 0)` with the sequence number
unchanged; an accepted reply whose inspected slice fails to decode
raises UnicodeDecodeError before `_update_seqn` (`crash`, sequence
unchanged). -/
def finishGet (cfg : Config) : RunRes → CallResult
  | .pending _ => .pending
  | .finished (.exhausted s t) => .ret (-2) (.num 0) cfg.seqn s t
  | .finished (.crash s t) => .crash s t
  | .finished (.accepted data s t) =>
    match classifyGet data with
    | none => .crash s t
    | some (rv, pl) => .ret rv pl (updateSeqn cfg.seqn) s t

/-- `MessageBoardNetwork.getMessages`: encode and send `"GET"` (computing
its checksum with `_gen_chksum`; `bytes([chksum])` would raise for a value
above 255), then drive the retry loops over the event schedule. -/
def getMessages (cfg : Config) (sched : List NetEvent) : CallResult :=
  match genChksum (asciiStr "GET") with
  | none => .crash 0 0
  | some c =>
    if c < 256 then finishGet cfg (run cfg initState sched)
    else .crash 0 0

/-- The request payload built by `postMessage`:
`("POST " + user + "::" + message).encode()`. -/
def postPayload (user message : List Nat) : List Nat :=
  asciiStr "POST " ++ user ++ [58, 58] ++ message

/-- Map the outcome of the retry loops to the value `postMessage` returns;
an accepted reply whose inspected slice fails to decode raises
UnicodeDecodeError before `_update_seqn` (`crash`). -/
def finishPost (cfg : Config) : RunRes → CallResult
  | .pending _ => .pending
  | .finished (.exhausted s t) => .ret (-2) (.num 0) cfg.seqn s t
  | .finished (.crash s t) => .crash s t
  | .finished (.accepted data s t) =>
    match classifyPost data with
    | none => .crash s t
    | some (rv, pl) => .ret rv pl (updateSeqn cfg.seqn) s t

/-- `MessageBoardNetwork.postMessage`: encode and send
`"POST <user>::<message>"`, then drive the same retry loops. -/
def postMessage (cfg : Config) (user message : List Nat)
    (sched : List NetEvent) : CallResult :=
  match genChksum (postPayload user message) with
  | none => .crash 0 0
  | some c =>
    if c < 256 then finishPost cfg (run cfg initState sched)
    else .crash 0 0

/-- The frame layout built at the send sites (`("C" + str(seqn)).encode() +
bytes([chksum]) + payload`), as a fallible codec function: `none` models
the IndexError of `_gen_chksum` on a payload shorter than two bytes and
the ValueError of `bytes([chksum])` on a value above 255. -/
def encode (seqn : Nat) (payload : List Nat) : Option (List Nat) :=
  match genChksum payload with
  | none => none
  | some c => if c < 256 then some ([67, 48 + seqn, c] ++ payload) else none

/-- Build a well-formed reply frame for a given payload (used to construct
concrete datagrams in schedules); the checksum byte is
`_gen_chksum(payload)`. -/
def mkFrame (seqn : Nat) (payload : List Nat) : List Nat :=
  [67, 48 + seqn, (genChksum payload).getD 0] ++ payload

/-- The payload slice of a received frame, `msgs[3:]`. -/
def decodePayload (frame : List Nat) : List Nat := frame.drop 3

/-- The checksum byte of a received frame, `msgs[2]`. -/
def decodeChksum (frame : List Nat) : Nat := frame.getD 2 0

/-- The rendering loop of `MessageBoardController.retrieve_messages`:
accumulate `msg_part + " "` and emit one string per 3 consecutive fields;
a trailing incomplete group is discarded. -/
def regroupAux : List (List Nat) → Nat → List Nat → List (List Nat)
  | [], _, _ => []
  | p :: rest, part, curr =>
    if part = 2 then (curr ++ p ++ [32]) :: regroupAux rest 0 []
    else regroupAux rest (part + 1) (curr ++ p ++ [32])

/-- Regroup the fields returned by `getMessages` into rendered message
strings, starting with `part_of_msg = 0` and an empty current string. -/
def regroup (parts : List (List Nat)) : List (List Nat) :=
  regroupAux parts 0 []

/-- Total delay carried by the arrival events of a schedule. -/
def sumDelays : List NetEvent → Nat
  | [] => 0
  | .timeout :: es => sumDelays es
  | .arrival d _ :: es => d + sumDelays es

/-- Blocking time recorded in a terminal outcome. -/
def outcomeTime : Outcome → Nat
  | .exhausted _ t => t
  | .accepted _ _ t => t
  | .crash _ t => t

/-- A reply frame rejected for its version byte (`'X'` instead of `'C'`):
checksum and sequence digit are valid, so it parses and is then
discarded by the header check. -/
def badVersionFrame : List Nat := [88, 48, 0, 90, 90]

/-- A well-formed reply frame (version `'C'`, sequence digit `'0'`, valid
checksum) whose two-byte payload `"ZZ"` matches none of the known payload
shapes. -/
def frameZZ : List Nat := [67, 48, 0, 90, 90]

/-- A reply frame that passes the header acceptance check (checksum
`255 ^ 254 = 1`, version `'C'`, sequence digit `'0'`) but whose payload
`[255, 254]` is not valid UTF-8, so `msgs[3:5].decode()` raises. -/
def frameBadUtf8 : List Nat := [67, 48, 1, 255, 254]

/-- A 5-byte datagram whose sequence byte is `'A'` (not an ASCII digit),
so `int(chr(msgs[1]))` raises ValueError. -/
def nonDigitFrame : List Nat := [67, 65, 0, 90, 90]

/-- The GET reply payload of the spec's end-to-end scenario 2. -/
def helloPayload : List Nat := asciiStr "OK::alice::hello::x"

/-- A configuration with `retries = 1`, `timeout = 2` time units and
current sequence number 0. -/
def cfgR1T2 : Config := ⟨1, 2, 0⟩

/-- A schedule of five rejected (wrong-version) replies each arriving one
time unit into its wait window, followed by two expired waits. -/
def floodSched : List NetEvent :=
  List.replicate 5 (.arrival 1 badVersionFrame) ++ [.timeout, .timeout]

/-- A configuration with a generous retry budget, used for single-reply
scenarios. -/
def cfgR10T1 : Config := ⟨10, 1, 0⟩

/-- `_gen_chksum` fails (IndexError) exactly on inputs shorter than two
bytes. -/
theorem genChksum_eq_none_iff (l : List Nat) :
    genChksum l = none ↔ l.length < 2 := by
  match l with
  | [] => simp [genChksum]
  | [a] => simp [genChksum]
  | a :: b :: t => simp [genChksum]

/-- `_gen_chksum` returns a value on every input of at least two bytes. -/
theorem genChksum_isSome (l : List Nat) (h : 2 ≤ l.length) :
    ∃ c, genChksum l = some c := by
  match l with
  | [] => simp at h
  | [a] => simp at h
  | a :: b :: t => exact ⟨_, rfl⟩

/-- XOR-folding byte values stays below 256. -/
theorem foldl_xor_lt (l : List Nat) :
    ∀ acc, acc < 256 → (∀ b ∈ l, b < 256) →
      l.foldl (fun a b => a ^^^ b) acc < 256 := by
  induction l with
  | nil => intro acc h _; simpa using h
  | cons x xs ih =>
    intro acc hacc hb
    simp only [List.foldl_cons]
    refine ih (acc ^^^ x) ?_ (fun b hbmem => hb b (List.mem_cons_of_mem _ hbmem))
    have hx : x < 256 := hb x (List.mem_cons_self _ _)
    have h8 : (256 : Nat) = 2 ^ 8 := by norm_num
    rw [h8] at hacc hx ⊢
    exact Nat.xor_lt_two_pow hacc hx

/-- The checksum of a list of byte values is below 256. -/
theorem genChksum_lt (l : List Nat) (c : Nat) (h : genChksum l = some c)
    (hb : ∀ b ∈ l, b < 256) : c < 256 := by
  match l with
  | [] => simp [genChksum] at h
  | [a] => simp [genChksum] at h
  | a :: b :: t =>
    simp only [genChksum, Option.some.injEq] at h
    subst h
    refine foldl_xor_lt t _ ?_ (fun x hx => hb x (by simp [hx]))
    have ha : a < 256 := hb a (by simp)
    have hb2 : b < 256 := hb b (by simp)
    have h8 : (256 : Nat) = 2 ^ 8 := by norm_num
    rw [h8] at ha hb2 ⊢
    exact Nat.xor_lt_two_pow ha hb2

/-- C1: the checksum acceptance test applied to every reply is the
bitwise-subset check `(received & computed) == received`, not equality:
`_chksum_correct` holds exactly when every bit set in the received
checksum byte is also set in the recomputed one, the header acceptance
test used on every reply demands exactly this check (plus version and
sequence equality), and the check is strictly weaker than equality. -/
theorem chksum_acceptance_is_bitwise_subset (recvd computed : Nat) :
    (chksumCorrect recvd computed = true ↔
      ∀ i, recvd.testBit i = true → computed.testBit i = true) ∧
    (∀ cfg ver sq, headerAccept cfg recvd computed ver sq = true ↔
      (chksumCorrect recvd computed = true ∧ ver = 67 ∧ cfg.seqn = sq)) ∧
    chksumCorrect 0 255 = true := by
  refine ⟨?_, ?_, by decide⟩
  · rw [chksumCorrect, beq_iff_eq]
    constructor
    · intro h i hi
      have hbit := congrArg (fun n => Nat.testBit n i) h
      simp only [Nat.testBit_land, hi, Bool.true_and] at hbit
      exact hbit
    · intro h
      apply Nat.eq_of_testBit_eq
      intro i
      rw [Nat.testBit_land]
      cases hr : recvd.testBit i with
      | false => simp
      | true => simp [h i hr]
  · intro cfg ver sq
    simp [headerAccept, Bool.and_eq_true, beq_iff_eq, and_assoc]

/-- Witness for C1 at a concrete input: the received checksum 5 passes
against the recomputed checksum 7 (5 is a bitwise subset of 7), so by the
subset characterization every set bit of 5 is set in 7. -/
theorem chksum_acceptance_is_bitwise_subset_w :
    Nat.testBit 7 0 = true :=
  (chksum_acceptance_is_bitwise_subset 5 7).1.mp (by decide) 0 (by decide)

/-- One-step unfolding of `run` on a nonempty schedule. -/
theorem run_cons (cfg : Config) (st : XState) (e : NetEvent)
    (es : List NetEvent) :
    run cfg st (e :: es) =
      match step cfg st e with
      | .done o => .finished o
      | .next st2 => run cfg st2 es := rfl

/-- Running the retry loops against expiring waits only: starting with
counter `nr` such that `nr + k = retries`, after `k + 1` further expired
waits the loops return the retries-exhausted outcome, having resent `k`
times and blocked `(k + 1) * timeout` longer. -/
theorem run_all_timeouts (cfg : Config) :
    ∀ (k nr s t : Nat) (rest : List NetEvent), nr + k = cfg.retries →
    run cfg ⟨nr, s, t⟩ (List.replicate (k + 1) NetEvent.timeout ++ rest) =
      .finished (.exhausted (s + k) (t + (k + 1) * cfg.timeout)) := by
  intro k
  induction k with
  | zero =>
    intro nr s t rest h
    simp only [Nat.add_zero] at h
    subst h
    simp [List.replicate, run, step]
  | succ k ih =>
    intro nr s t rest h
    have hlt : ¬ cfg.retries < nr + 1 := by omega
    have hstep : step cfg ⟨nr, s, t⟩ NetEvent.timeout =
        .next ⟨nr + 1, s + 1, t + cfg.timeout⟩ := by
      simp [step, hlt]
    rw [List.replicate_succ]
    simp only [List.cons_append, run_cons, hstep]
    rw [ih (nr + 1) (s + 1) (t + cfg.timeout) rest (by omega)]
    have hs : s + 1 + k = s + (k + 1) := by omega
    have ht : t + cfg.timeout + (k + 1) * cfg.timeout =
        t + (k + 1 + 1) * cfg.timeout := by ring
    rw [hs, ht]

/-- C2: if no reply ever arrives (every wait in the schedule expires, and
there are enough events to cover the whole call), both `getMessages` and
`postMessage` return the retries-exhausted result `(-2, 0)` after exactly
`retries + 1` transmissions (1 initial send plus `retries` resends),
blocking for exactly `(retries + 1) * timeout` — in particular no longer
than that bound — and leaving the sequence number unchanged. -/
theorem no_reply_retries_exhausted (cfg : Config) (sched : List NetEvent)
    (user message : List Nat)
    (hall : ∀ e ∈ sched, e = NetEvent.timeout)
    (hlen : cfg.retries + 1 ≤ sched.length)
    (hc : ∀ b ∈ postPayload user message, b < 256) :
    getMessages cfg sched =
      .ret (-2) (.num 0) cfg.seqn (cfg.retries + 1)
        ((cfg.retries + 1) * cfg.timeout) ∧
    postMessage cfg user message sched =
      .ret (-2) (.num 0) cfg.seqn (cfg.retries + 1)
        ((cfg.retries + 1) * cfg.timeout) := by
  have htake : sched.take (cfg.retries + 1) =
      List.replicate (cfg.retries + 1) NetEvent.timeout := by
    rw [List.eq_replicate_iff]
    refine ⟨by rw [List.length_take]; omega, ?_⟩
    intro b hb
    exact hall b (List.mem_of_mem_take hb)
  have hsched : sched = List.replicate (cfg.retries + 1) NetEvent.timeout ++
      sched.drop (cfg.retries + 1) := by
    rw [← htake, List.take_append_drop]
  have hrun : run cfg initState sched =
      .finished (.exhausted (cfg.retries + 1) ((cfg.retries + 1) * cfg.timeout)) := by
    rw [hsched, initState]
    have := run_all_timeouts cfg cfg.retries 0 1 0 (sched.drop (cfg.retries + 1))
      (by omega)
    rw [this]
    simp [Nat.add_comm]
  constructor
  · rw [getMessages]
    have hg : genChksum (asciiStr "GET") = some 86 := by decide
    simp only [hg, hrun]
    rw [if_pos (by norm_num)]
    simp [finishGet]
  · rw [postMessage]
    obtain ⟨c, hcc⟩ := genChksum_isSome (postPayload user message)
      (by simp [postPayload, asciiStr])
    have hlt256 : c < 256 := genChksum_lt _ _ hcc hc
    simp only [hcc, hrun]
    rw [if_pos hlt256]
    simp [finishPost]

/-- Witness for C2: with `retries = 2`, `timeout = 1` and a schedule of
three expired waits, both calls return `(-2, 0)` after 3 transmissions and
3 time units. -/
theorem no_reply_retries_exhausted_w :
    getMessages ⟨2, 1, 0⟩ (List.replicate 3 NetEvent.timeout) =
      .ret (-2) (.num 0) 0 3 3 ∧
    postMessage ⟨2, 1, 0⟩ (asciiStr "u") (asciiStr "hi")
      (List.replicate 3 NetEvent.timeout) =
      .ret (-2) (.num 0) 0 3 3 :=
  no_reply_retries_exhausted ⟨2, 1, 0⟩ (List.replicate 3 NetEvent.timeout)
    (asciiStr "u") (asciiStr "hi") (by decide) (by decide) (by decide)

/-- C3 counterexample: the claimed round-trip fails for the length-1
payload `"G"` — encoding crashes (`_gen_chksum` raises IndexError on an
input of fewer than two bytes), so no frame is produced at all for this
payload of length ≥ 1. -/
theorem roundtrip_len1_counterexample :
    encode 0 (asciiStr "G") = none ∧ (asciiStr "G").length = 1 ∧
    genChksum (asciiStr "G") = none := by decide

/-- C3 amended: for every payload of length at least 2 (over byte values),
encoding succeeds, decoding the frame recovers the payload, and the
checksum byte placed in the frame validates (via `_chksum_correct`)
against the checksum recomputed over the decoded payload.  Payloads of
length 1 crash the checksum computation instead. -/
theorem roundtrip_amended (seqn : Nat) (p : List Nat) (h2 : 2 ≤ p.length)
    (hb : ∀ b ∈ p, b < 256) :
    ∃ frame c, encode seqn p = some frame ∧ genChksum p = some c ∧
      decodePayload frame = p ∧ genChksum (decodePayload frame) = some c ∧
      chksumCorrect (decodeChksum frame) c = true := by
  obtain ⟨c, hcc⟩ := genChksum_isSome p h2
  have hlt : c < 256 := genChksum_lt _ _ hcc hb
  refine ⟨[67, 48 + seqn, c] ++ p, c, ?_, hcc, ?_, ?_, ?_⟩
  · rw [encode]
    simp only [hcc]
    rw [if_pos hlt]
  · simp [decodePayload]
  · simp [decodePayload, hcc]
  · simp [decodeChksum, chksumCorrect]

/-- Witness for C3 amended at the payload `"GET"` with sequence number 0. -/
theorem roundtrip_amended_w :
    ∃ frame c, encode 0 (asciiStr "GET") = some frame ∧
      genChksum (asciiStr "GET") = some c ∧
      decodePayload frame = asciiStr "GET" ∧
      genChksum (decodePayload frame) = some c ∧
      chksumCorrect (decodeChksum frame) c = true :=
  roundtrip_amended 0 (asciiStr "GET") (by decide) (by decide)

/-- C4 counterexample: not every transport-accepted exchange toggles the
sequence number.  The reply frame `[67, 48, 1, 255, 254]` passes the
header acceptance check (checksum, version, sequence), yet `getMessages`
then raises UnicodeDecodeError at `msgs[3:5].decode()` — the call crashes
before `_update_seqn`, so the accepted exchange does not toggle the
sequence number. -/
theorem seqn_toggle_counterexample :
    run cfgR10T1 initState [NetEvent.arrival 0 frameBadUtf8] =
      .finished (.accepted frameBadUtf8 1 0) ∧
    getMessages cfgR10T1 [NetEvent.arrival 0 frameBadUtf8] = .crash 1 0 := by
  decide

/-- C4 amended: starting from sequence 0 at construction, after N
normally-returning accepted exchanges the sequence number used next is
N mod 2, and each accepted exchange that returns (its reply payload
decodes) toggles the sequence number exactly once — in `getMessages` and
`postMessage` alike; but an accepted exchange whose reply payload fails
UTF-8 decoding raises before `_update_seqn` and leaves the sequence
number untouched. -/
theorem seqn_alternation_amended :
    (∀ n : Nat, updateSeqn^[n] 0 = n % 2) ∧
    (∀ (cfg : Config) (sched : List NetEvent) (data : List Nat)
      (s t : Nat) (rv : Int) (pl : AppPayload),
      run cfg initState sched = .finished (.accepted data s t) →
      classifyGet data = some (rv, pl) →
      getMessages cfg sched = .ret rv pl (updateSeqn cfg.seqn) s t) ∧
    (∀ (cfg : Config) (sched : List NetEvent) (data : List Nat) (s t : Nat),
      run cfg initState sched = .finished (.accepted data s t) →
      classifyGet data = none →
      getMessages cfg sched = .crash s t) ∧
    (∀ (cfg : Config) (user message : List Nat) (sched : List NetEvent)
      (data : List Nat) (s t : Nat) (rv : Int) (pl : AppPayload),
      run cfg initState sched = .finished (.accepted data s t) →
      (∀ b ∈ postPayload user message, b < 256) →
      classifyPost data = some (rv, pl) →
      postMessage cfg user message sched =
        .ret rv pl (updateSeqn cfg.seqn) s t) ∧
    (∀ (cfg : Config) (user message : List Nat) (sched : List NetEvent)
      (data : List Nat) (s t : Nat),
      run cfg initState sched = .finished (.accepted data s t) →
      (∀ b ∈ postPayload user message, b < 256) →
      classifyPost data = none →
      postMessage cfg user message sched = .crash s t) := by
  have hg : genChksum (asciiStr "GET") = some 86 := by decide
  refine ⟨?_, ?_, ?_, ?_, ?_⟩
  · intro n
    induction n with
    | zero => simp
    | succ n ih =>
      rw [Function.iterate_succ_apply', ih]
      have h2 := Nat.mod_two_eq_zero_or_one n
      rw [updateSeqn]
      split <;> omega
  · intro cfg sched data s t rv pl hrun hcls
    rw [getMessages]
    simp only [hg, hrun]
    rw [if_pos (by norm_num)]
    simp only [finishGet, hcls]
  · intro cfg sched data s t hrun hcls
    rw [getMessages]
    simp only [hg, hrun]
    rw [if_pos (by norm_num)]
    simp only [finishGet, hcls]
  · intro cfg user message sched data s t rv pl hrun hb hcls
    rw [postMessage]
    obtain ⟨c, hcc⟩ := genChksum_isSome (postPayload user message)
      (by simp [postPayload, asciiStr])
    have hlt : c < 256 := genChksum_lt _ _ hcc hb
    simp only [hcc, hrun]
    rw [if_pos hlt]
    simp only [finishPost, hcls]
  · intro cfg user message sched data s t hrun hb hcls
    rw [postMessage]
    obtain ⟨c, hcc⟩ := genChksum_isSome (postPayload user message)
      (by simp [postPayload, asciiStr])
    have hlt : c < 256 := genChksum_lt _ _ hcc hb
    simp only [hcc, hrun]
    rw [if_pos hlt]
    simp only [finishPost, hcls]

/-- Witness for C4 amended: after 3 normally-returning accepted exchanges
the next sequence number is 1 = 3 mod 2, and a concrete accepted GET
exchange with a decodable reply returns with the sequence toggled from 0
to 1 exactly once. -/
theorem seqn_alternation_amended_w :
    updateSeqn^[3] 0 = 3 % 2 ∧
    getMessages cfgR10T1 [NetEvent.arrival 0 frameZZ] =
      .ret 0 (.msgs [asciiStr "no messages currently"]) (updateSeqn 0) 1 0 :=
  ⟨seqn_alternation_amended.1 3,
   seqn_alternation_amended.2.1 cfgR10T1 [NetEvent.arrival 0 frameZZ]
     frameZZ 1 0 0 (.msgs [asciiStr "no messages currently"])
     (by decide) (by decide)⟩

/-- C5 counterexample: a malformed reply is NOT always merely discarded —
it can be fatal to the call.  An empty datagram (and a 4-byte one, both
too short for the 3-byte header plus the two bytes the checksum reads)
makes both `getMessages` and `postMessage` raise an uncaught IndexError
inside `_gen_chksum(msgs[3:])`, and a 5-byte datagram whose sequence byte
is not an ASCII digit raises an uncaught ValueError in
`int(chr(msgs[1]))` — all modelled as the `crash` outcome, instead of
continuing to wait. -/
theorem malformed_reply_counterexample :
    getMessages cfgR10T1 [NetEvent.arrival 0 []] = .crash 1 0 ∧
    getMessages cfgR10T1 [NetEvent.arrival 0 [67, 48, 0, 75]] = .crash 1 0 ∧
    getMessages cfgR10T1 [NetEvent.arrival 0 nonDigitFrame] = .crash 1 0 ∧
    postMessage cfgR10T1 (asciiStr "u") (asciiStr "hi")
      [NetEvent.arrival 0 []] = .crash 1 0 := by decide

/-- C5 amended: a reply of at least 5 bytes whose sequence byte is an
ASCII digit parses, and when it fails validation it is discarded and
waiting continues under the same retry/timeout budget; but a reply with
fewer than 5 bytes (3-byte header plus the two bytes `_gen_chksum`
unconditionally reads) crashes the call with an uncaught IndexError, and
a reply of at least 5 bytes whose sequence byte is not an ASCII digit
crashes it with an uncaught ValueError — such malformed datagrams ARE
fatal. -/
theorem malformed_reply_amended (cfg : Config) (st : XState) (d : Nat)
    (data : List Nat) :
    (data.length < 5 →
      step cfg st (.arrival d data) = .done (.crash st.sends (st.time + d))) ∧
    (5 ≤ data.length → ¬(48 ≤ data.getD 1 0 ∧ data.getD 1 0 ≤ 57) →
      step cfg st (.arrival d data) = .done (.crash st.sends (st.time + d))) ∧
    (∀ recvd computed ver sq,
      headerParse data = some (recvd, computed, ver, sq) →
      headerAccept cfg recvd computed ver sq = false →
      step cfg st (.arrival d data) =
        .next ⟨st.numRetries, st.sends + 1, st.time + d⟩) := by
  refine ⟨?_, ?_, ?_⟩
  · intro hshort
    have hnone : genChksum (data.drop 3) = none := by
      rw [genChksum_eq_none_iff, List.length_drop]
      omega
    rw [step, headerParse, hnone]
  · intro hlong hdigit
    obtain ⟨c, hc⟩ := genChksum_isSome (data.drop 3)
      (by rw [List.length_drop]; omega)
    have hnone : headerParse data = none := by
      rw [headerParse]
      simp only [hc]
      rw [if_neg hdigit]
    rw [step, hnone]
  · intro recvd computed ver sq hparse haccept
    rw [step, hparse]
    simp only [haccept]
    rw [if_neg (by simp)]

/-- Witness for C5 amended: a 4-byte datagram crashes the exchange, a
5-byte datagram with sequence byte `'A'` crashes it too, and a parseable
wrong-version reply is discarded with the retry counter preserved and
the send count and clock advanced as for a received-and-rejected
reply. -/
theorem malformed_reply_amended_w :
    step cfgR10T1 ⟨0, 1, 0⟩ (.arrival 0 [67, 48, 0, 75]) =
      .done (.crash 1 0) ∧
    step cfgR10T1 ⟨0, 1, 0⟩ (.arrival 0 nonDigitFrame) = .done (.crash 1 0) ∧
    step cfgR10T1 ⟨0, 1, 0⟩ (.arrival 1 badVersionFrame) = .next ⟨0, 2, 1⟩ :=
  ⟨(malformed_reply_amended cfgR10T1 ⟨0, 1, 0⟩ 0 [67, 48, 0, 75]).1
     (by decide),
   (malformed_reply_amended cfgR10T1 ⟨0, 1, 0⟩ 0 nonDigitFrame).2.1
     (by decide) (by decide),
   (malformed_reply_amended cfgR10T1 ⟨0, 1, 0⟩ 1 badVersionFrame).2.2
     0 0 88 0 (by decide) (by decide)⟩

/-- C6 counterexample: with `retries = 1`, `timeout = 2`, a flood of five
wrong-version replies each arriving 1 time unit into its window followed
by two expired waits makes `getMessages` block for 9 time units before
returning, exceeding the claimed bound `timeout * (retryLimit + 1) = 4`;
rejected replies hold the call open without consuming retry budget, so
the claimed bound does not hold in every execution. -/
theorem bounded_blocking_counterexample :
    getMessages cfgR1T2 floodSched = .ret (-2) (.num 0) 0 7 9 ∧
    cfgR1T2.timeout * (cfgR1T2.retries + 1) < 9 := by decide

/-- Along any terminating execution of the retry loops, the final blocking
time is bounded by the time already spent, plus one `timeout` for each
unit of remaining retry budget, plus the delivery delays of the scheduled
arrivals.  (Timeout events are charged `timeout` each and are limited by
the budget; arrival events are charged only their delay but are not
limited.) -/
theorem run_time_bound (cfg : Config) :
    ∀ (sched : List NetEvent) (st : XState) (o : Outcome),
      st.numRetries ≤ cfg.retries →
      run cfg st sched = .finished o →
      outcomeTime o ≤
        st.time + (cfg.retries + 1 - st.numRetries) * cfg.timeout +
          sumDelays sched := by
  intro sched
  induction sched with
  | nil =>
    intro st o _ h
    simp [run] at h
  | cons e es ih =>
    intro st o hnr h
    rw [run_cons] at h
    cases e with
    | timeout =>
      by_cases hc : cfg.retries < st.numRetries + 1
      · rw [step, if_pos hc] at h
        simp only at h
        injection h with h2
        subst h2
        rw [outcomeTime]
        have h1 : 1 ≤ cfg.retries + 1 - st.numRetries := by omega
        calc st.time + cfg.timeout
            ≤ st.time + (cfg.retries + 1 - st.numRetries) * cfg.timeout := by
              have := Nat.mul_le_mul_right cfg.timeout h1
              omega
          _ ≤ st.time + (cfg.retries + 1 - st.numRetries) * cfg.timeout +
              sumDelays (NetEvent.timeout :: es) := Nat.le_add_right _ _
      · rw [step, if_neg hc] at h
        simp only at h
        have hb := ih ⟨st.numRetries + 1, st.sends + 1, st.time + cfg.timeout⟩
          o (by dsimp only; omega) h
        dsimp only at hb
        have heq : (cfg.retries + 1 - st.numRetries) * cfg.timeout =
            cfg.timeout + (cfg.retries + 1 - (st.numRetries + 1)) * cfg.timeout := by
          have : cfg.retries + 1 - st.numRetries =
              (cfg.retries + 1 - (st.numRetries + 1)) + 1 := by omega
          rw [this, Nat.succ_mul]
          omega
        rw [sumDelays, heq]
        omega
    | arrival d data =>
      rw [step] at h
      cases hp : headerParse data with
      | none =>
        rw [hp] at h
        simp only at h
        injection h with h2
        subst h2
        rw [outcomeTime, sumDelays]
        omega
      | some quad =>
        obtain ⟨recvd, computed, ver, sq⟩ := quad
        rw [hp] at h
        simp only at h
        by_cases ha : headerAccept cfg recvd computed ver sq
        · rw [if_pos ha] at h
          injection h with h2
          subst h2
          rw [outcomeTime, sumDelays]
          omega
        · rw [if_neg ha] at h
          have hb := ih ⟨st.numRetries, st.sends + 1, st.time + d⟩ o hnr h
          dsimp only at hb
          rw [sumDelays]
          omega

/-- C6 amended: in every terminating execution, the blocking time of
`getMessages` and `postMessage` is at most
`timeout * (retryLimit + 1)` PLUS the total delivery delay of the replies
that arrived: expired waits are bounded by the retry budget, but each
received-and-rejected reply extends the call by its own delivery delay
without consuming budget, so only the timeout component is bounded by
`timeout * (retryLimit + 1)`. -/
theorem bounded_blocking_amended (cfg : Config) (sched : List NetEvent)
    (user message : List Nat) (rv : Int) (pl : AppPayload) (sq s t : Nat) :
    (getMessages cfg sched = .ret rv pl sq s t →
      t ≤ (cfg.retries + 1) * cfg.timeout + sumDelays sched) ∧
    (postMessage cfg user message sched = .ret rv pl sq s t →
      t ≤ (cfg.retries + 1) * cfg.timeout + sumDelays sched) := by
  have key : ∀ r : RunRes, run cfg initState sched = r →
      ∀ o : Outcome, r = .finished o →
      outcomeTime o ≤ (cfg.retries + 1) * cfg.timeout + sumDelays sched := by
    intro r hr o ho
    subst ho
    have := run_time_bound cfg sched initState o (by simp [initState]) hr
    simpa [initState] using this
  constructor
  · intro h
    rw [getMessages] at h
    have hg : genChksum (asciiStr "GET") = some 86 := by decide
    simp only [hg] at h
    rw [if_pos (by norm_num)] at h
    cases hr : run cfg initState sched with
    | pending st2 => rw [hr, finishGet] at h; exact absurd h (by simp)
    | finished o =>
      have hb := key _ hr o rfl
      rw [hr] at h
      cases o with
      | exhausted s2 t2 =>
        rw [finishGet] at h
        injection h with h1 h2 h3 h4 h5
        subst h5
        simpa [outcomeTime] using hb
      | accepted data s2 t2 =>
        rw [finishGet] at h
        cases hcg : classifyGet data with
        | none =>
          simp only [hcg] at h
          exact absurd h (by simp)
        | some pr =>
          obtain ⟨rv2, pl2⟩ := pr
          simp only [hcg] at h
          injection h with h1 h2 h3 h4 h5
          subst h5
          simpa [outcomeTime] using hb
      | crash s2 t2 => rw [finishGet] at h; exact absurd h (by simp)
  · intro h
    rw [postMessage] at h
    cases hcc : genChksum (postPayload user message) with
    | none => rw [hcc] at h; exact absurd h (by simp)
    | some c =>
      rw [hcc] at h
      simp only at h
      by_cases hlt : c < 256
      · rw [if_pos hlt] at h
        cases hr : run cfg initState sched with
        | pending st2 => rw [hr, finishPost] at h; exact absurd h (by simp)
        | finished o =>
          have hb := key _ hr o rfl
          rw [hr] at h
          cases o with
          | exhausted s2 t2 =>
            rw [finishPost] at h
            injection h with h1 h2 h3 h4 h5
            subst h5
            simpa [outcomeTime] using hb
          | accepted data s2 t2 =>
            rw [finishPost] at h
            cases hcp : classifyPost data with
            | none =>
              simp only [hcp] at h
              exact absurd h (by simp)
            | some pr =>
              obtain ⟨rv2, pl2⟩ := pr
              simp only [hcp] at h
              injection h with h1 h2 h3 h4 h5
              subst h5
              simpa [outcomeTime] using hb
          | crash s2 t2 => rw [finishPost] at h; exact absurd h (by simp)
      · rw [if_neg hlt] at h
        exact absurd h (by simp)

/-- Witness for C6 amended: on the flood schedule the call blocks 9 time
units, within `(retries + 1) * timeout + total arrival delay = 4 + 5`. -/
theorem bounded_blocking_amended_w :
    9 ≤ (cfgR1T2.retries + 1) * cfgR1T2.timeout + sumDelays floodSched :=
  (bounded_blocking_amended cfgR1T2 floodSched (asciiStr "u") (asciiStr "hi")
    (-2) (.num 0) 0 7 9).1 (by decide)

/-- C7: a corrupted or otherwise rejected reply delivered before the
timeout does not reset the retry counter and is not charged as a
timeout: the rejection transition carries the counter value unchanged
(and adds only the reply's delivery delay to the clock, one resend to the
send count), while each expired wait increments the counter exactly once
and charges exactly one `timeout` — returning the retries-exhausted
outcome when the incremented counter exceeds the budget. -/
theorem rejection_preserves_retry_budget (cfg : Config) (st : XState) :
    (∀ d data recvd computed ver sq,
      headerParse data = some (recvd, computed, ver, sq) →
      headerAccept cfg recvd computed ver sq = false →
      step cfg st (.arrival d data) =
        .next ⟨st.numRetries, st.sends + 1, st.time + d⟩) ∧
    (st.numRetries + 1 ≤ cfg.retries →
      step cfg st .timeout =
        .next ⟨st.numRetries + 1, st.sends + 1, st.time + cfg.timeout⟩) ∧
    (cfg.retries < st.numRetries + 1 →
      step cfg st .timeout =
        .done (.exhausted st.sends (st.time + cfg.timeout))) := by
  refine ⟨?_, ?_, ?_⟩
  · intro d data recvd computed ver sq hparse haccept
    rw [step, hparse]
    simp only [haccept]
    rw [if_neg (by simp)]
  · intro hle
    rw [step, if_neg (by omega)]
  · intro hgt
    rw [step, if_pos hgt]

/-- Witness for C7: a wrong-version reply arriving with the counter at 3
leaves the counter at 3; an expired wait from the same state moves it to
exactly 4. -/
theorem rejection_preserves_retry_budget_w :
    step cfgR10T1 ⟨3, 4, 6⟩ (.arrival 1 badVersionFrame) = .next ⟨3, 5, 7⟩ ∧
    step cfgR10T1 ⟨3, 4, 6⟩ .timeout = .next ⟨4, 5, 7⟩ :=
  ⟨(rejection_preserves_retry_budget cfgR10T1 ⟨3, 4, 6⟩).1
     1 badVersionFrame 0 0 88 0 (by decide) (by decide),
   (rejection_preserves_retry_budget cfgR10T1 ⟨3, 4, 6⟩).2.1 (by decide)⟩

/-- C8 counterexample: when a GET exchange is accepted with reply payload
`"OK::alice::hello::x"`, the fetch-and-render pipeline does NOT produce
`["alice hello x "]`: `getMessages` strips only 5 bytes (header plus
`"OK"`, not the following `"::"`), so the split fields start with an
empty field and the regrouping emits `[" alice hello "]` instead. -/
theorem fetch_render_counterexample :
    getMessages cfgR10T1 [.arrival 0 (mkFrame 0 helloPayload)] =
      .ret 1 (.msgs ([[], asciiStr "alice", asciiStr "hello", asciiStr "x"])) 1 1 0 ∧
    regroup [[], asciiStr "alice", asciiStr "hello", asciiStr "x"] ≠
      [asciiStr "alice hello x "] := by decide

/-- C8 amended: for the accepted GET reply payload
`"OK::alice::hello::x"`, the pipeline produces exactly the one-element
list `[" alice hello "]`: the field list is
`["", "alice", "hello", "x"]` (leading empty field from the unstripped
separator), the first group of 3 renders as `" alice hello "`, and the
trailing field `"x"` is discarded as an incomplete group. -/
theorem fetch_render_amended :
    getMessages cfgR10T1 [.arrival 0 (mkFrame 0 helloPayload)] =
      .ret 1 (.msgs (splitCC (helloPayload.drop 2))) 1 1 0 ∧
    splitCC (helloPayload.drop 2) =
      [[], asciiStr "alice", asciiStr "hello", asciiStr "x"] ∧
    regroup (splitCC (helloPayload.drop 2)) = [asciiStr " alice hello "] := by
  decide

/-- C9 counterexample: an accepted GET reply whose two-byte payload
`"ZZ"` matches none of the known payload shapes is classified as the
EMPTY result (return code 0, `["no messages currently"]`), not the
unrecognized result 2: the empty-board branch tests only
`len(msgs) == 5`, not that the payload is `"OK"`. -/
theorem classify_unknown_counterexample :
    getMessages cfgR10T1 [.arrival 0 frameZZ] =
      .ret 0 (.msgs [asciiStr "no messages currently"]) 1 1 0 ∧
    (frameZZ.drop 3 ≠ asciiStr "OK" ∧
      (frameZZ.drop 3).take 5 ≠ asciiStr "ERROR") := by decide

/-- C9 amended: for an accepted GET reply (3-byte header `[a, b, c]`
followed by payload `p`): the exact payload `"OK"` yields the empty
result `(0, ["no messages currently"])`; an `"ERROR"`-prefixed payload
yields the server-error result `(-1, description)` with the description
verbatim; but EVERY two-byte payload — not just `"OK"` — yields the empty
result 0, because that branch tests only the total length; only payloads
that match no known shape AND do not have length 2 yield the
unrecognized result `(2, 0)`. -/
theorem classifyGet_header_split (a b c : Nat) (p : List Nat) :
    classifyGet ([a, b, c] ++ p) =
      if utf8Valid (p.take 2) = true then
        if p.take 2 = asciiStr "OK" ∧ 2 < p.length then
          if utf8Valid (p.drop 2) = true then
            some (1, .msgs (splitCC (p.drop 2)))
          else none
        else if p.length = 2 then
          some (0, .msgs [asciiStr "no messages currently"])
        else if utf8Valid (p.take 5) = true then
          if p.take 5 = asciiStr "ERROR" then
            if utf8Valid (p.drop 5) = true then some (-1, .txt (p.drop 5))
            else none
          else some (2, .num 0)
        else none
      else none := by
  rw [classifyGet]
  have h1 : ([a, b, c] ++ p).drop 3 = p := rfl
  have h2 : ([a, b, c] ++ p).drop 5 = p.drop 2 := rfl
  have h3 : ([a, b, c] ++ p).drop 8 = p.drop 5 := rfl
  have h4 : ([a, b, c] ++ p).length = p.length + 3 := by simp
  rw [h1, h2, h3, h4]
  have h5 : (5 < p.length + 3) ↔ (2 < p.length) := by omega
  have h6 : (p.length + 3 = 5) ↔ (p.length = 2) := by omega
  simp only [h5, h6]

theorem classify_get_amended (a b c : Nat) (p : List Nat) :
    (p = asciiStr "OK" →
      classifyGet ([a, b, c] ++ p) =
        some (0, .msgs [asciiStr "no messages currently"])) ∧
    (p.take 5 = asciiStr "ERROR" → utf8Valid (p.drop 5) = true →
      classifyGet ([a, b, c] ++ p) = some (-1, .txt (p.drop 5))) ∧
    (p.length = 2 → utf8Valid p = true →
      classifyGet ([a, b, c] ++ p) =
        some (0, .msgs [asciiStr "no messages currently"])) ∧
    (utf8Valid (p.take 2) = true → p.take 2 ≠ asciiStr "OK" →
      p.length ≠ 2 → utf8Valid (p.take 5) = true →
      p.take 5 ≠ asciiStr "ERROR" →
      classifyGet ([a, b, c] ++ p) = some (2, .num 0)) ∧
    (utf8Valid (p.take 2) = false → classifyGet ([a, b, c] ++ p) = none) := by
  rw [classifyGet_header_split]
  refine ⟨?_, ?_, ?_, ?_, ?_⟩
  · intro hp
    subst hp
    decide
  · intro hp hv5
    have hlen5 : 5 ≤ p.length := by
      have := congrArg List.length hp
      rw [List.length_take] at this
      simp only [asciiStr] at this
      simp at this
      omega
    have htk2 : p.take 2 = [69, 82] := by
      have h25 : (p.take 5).take 2 = p.take 2 := by
        rw [List.take_take]
        norm_num
      rw [← h25, hp]
      decide
    have hv2 : utf8Valid (p.take 2) = true := by
      rw [htk2]
      decide
    have hc1 : ¬(p.take 2 = asciiStr "OK" ∧ 2 < p.length) := by
      rw [htk2]
      intro hcon
      exact absurd hcon.1 (by decide)
    have hc2 : ¬(p.length = 2) := by omega
    have hvERR : utf8Valid (p.take 5) = true := by
      rw [hp]
      decide
    rw [if_pos hv2, if_neg hc1, if_neg hc2, if_pos hvERR, if_pos hp,
      if_pos hv5]
  · intro hp hv
    have htkp : p.take 2 = p := List.take_of_length_le (by omega)
    have hv2 : utf8Valid (p.take 2) = true := by rw [htkp]; exact hv
    have hc1 : ¬(p.take 2 = asciiStr "OK" ∧ 2 < p.length) := by
      intro hcon
      omega
    rw [if_pos hv2, if_neg hc1, if_pos hp]
  · intro hv2 hOK hlen2 hv5 hERR
    have hc1 : ¬(p.take 2 = asciiStr "OK" ∧ 2 < p.length) := fun hcon =>
      hOK hcon.1
    rw [if_pos hv2, if_neg hc1, if_neg hlen2, if_pos hv5, if_neg hERR]
  · intro hv2
    rw [if_neg (by rw [hv2]; exact Bool.false_ne_true)]

/-- Witness for C9 amended: the accepted reply payload `"ERRORhi"`
classifies as the server-error result with the description `"hi"`
verbatim. -/
theorem classify_get_amended_w :
    classifyGet ([67, 48, 0] ++ asciiStr "ERRORhi") =
      some (-1, .txt ((asciiStr "ERRORhi").drop 5)) :=
  (classify_get_amended 67 48 0 (asciiStr "ERRORhi")).2.1 (by decide)
    (by decide)

/-- C10 counterexample: a single-character POST body is NOT a one-byte
checksum input and violates no precondition — posting message `"x"` as
user `"u"` feeds `_gen_chksum` the 9-byte payload `"POST u::x"`, whose
checksum is defined (value 53). -/
theorem single_char_post_counterexample :
    (postPayload (asciiStr "u") (asciiStr "x")).length = 9 ∧
    2 ≤ (postPayload (asciiStr "u") (asciiStr "x")).length ∧
    genChksum (postPayload (asciiStr "u") (asciiStr "x")) = some 53 := by
  decide

/-- C10 amended: `_gen_chksum` is defined only for inputs of length at
least 2 — it fails (IndexError) on every input of length 0 or 1 and
returns a value on every longer input — but no POST body can trigger
this: the request payload `"POST <user>::<message>"` is always at least 7
bytes long and always has a defined checksum.  (The reachable short
inputs are reply slices `msgs[3:]` of datagrams shorter than 5 bytes.) -/
theorem genChksum_domain_amended (l user message : List Nat) :
    (l.length < 2 → genChksum l = none) ∧
    (2 ≤ l.length → ∃ chk, genChksum l = some chk) ∧
    7 ≤ (postPayload user message).length ∧
    (∃ chk, genChksum (postPayload user message) = some chk) := by
  refine ⟨?_, genChksum_isSome l, ?_, ?_⟩
  · intro h
    rw [genChksum_eq_none_iff]
    exact h
  · simp only [postPayload, asciiStr]
    simp
    omega
  · exact genChksum_isSome _ (by simp [postPayload, asciiStr])

/-- Witness for C10 amended at concrete inputs: the one-byte input `[71]`
crashes the checksum, while the payload for posting `"hello"` as
`"alice"` has a defined checksum. -/
theorem genChksum_domain_amended_w :
    genChksum [71] = none ∧
    ∃ chk, genChksum (postPayload (asciiStr "alice") (asciiStr "hello")) =
      some chk :=
  ⟨(genChksum_domain_amended [71] (asciiStr "alice") (asciiStr "hello")).1
     (by decide),
   (genChksum_domain_amended [71] (asciiStr "alice") (asciiStr "hello")).2.2.2⟩

end Messenger465
